import Mathlib

/-!
Verification development for the `mcp-fetch` server (`src/index.ts`).

The file shallowly embeds the content-normalisation pipeline: the
status check and content-type classification of `fetchUrl`, the image
harvesting of `extractContentFromHtml`, the PDF text extraction branch,
and the pagination step of the `CallToolSchema` handler.  Text is
modelled as `List Char` (JavaScript string indices become list indices);
external libraries (jsdom, Readability, turndown, pdf-parse, the network)
appear as explicit inputs describing their outcome, while every decision
made by the repository's own code is translated verbatim.
-/

namespace McpFetch

/-! ## Pagination (`src/index.ts` lines 214-223)

The handler runs, with `content` the fetched text:
```text
let finalContent = content
if (finalContent.length > maxLength) \x7b
  finalContent = finalContent.slice(startIndex, startIndex + maxLength)
  finalContent += notice(startIndex + maxLength)
\x7d
```
`slice(start, stop)` with nonnegative arguments is "take `stop`, then
drop `start`" (both clamped to the string length). -/

/-- JavaScript `String.prototype.slice(start, stop)` for nonnegative
`start ≤ stop`, on the character list of the string. -/
def jsSlice (s : List Char) (start stop : Nat) : List Char :=
  (s.take stop).drop start

/-- The continuation notice appended when the handler truncates, built
from the template literal on lines 220-222; `n` is the interpolated
`startIndex + maxLength`. -/
def truncationNotice (n : Nat) : List Char :=
  "\n\n<e>Content truncated. Call the fetch tool with a start_index of ".data
    ++ (Nat.repr n).data
    ++ " to get more content.</e>".data

/-- The `nextStartIndex` the notice advertises: literally
`parsed.data.startIndex + parsed.data.maxLength` (line 221). -/
def nextStartIndex (startIndex maxLength : Nat) : Nat :=
  startIndex + maxLength

/-- Whether the handler takes the truncation branch: the condition
`finalContent.length > maxLength` of line 215 (it does not look at
`startIndex`). -/
def paginateTruncated (content : List Char) (maxLength : Nat) : Bool :=
  decide (maxLength < content.length)

/-- The bare slice the truncation branch computes (line 216-219); when
the branch is not taken the content is left whole. -/
def paginateSlice (content : List Char) (startIndex maxLength : Nat) : List Char :=
  if maxLength < content.length then
    jsSlice content startIndex (startIndex + maxLength)
  else content

/-- The full pagination step, lines 214-223: the bare slice with the
continuation notice appended when the truncation branch is taken. -/
def paginate (content : List Char) (startIndex maxLength : Nat) : List Char :=
  if maxLength < content.length then
    jsSlice content startIndex (startIndex + maxLength)
      ++ truncationNotice (startIndex + maxLength)
  else content

theorem paginate_eq_slice_append (content : List Char) (startIndex maxLength : Nat) :
    paginate content startIndex maxLength =
      paginateSlice content startIndex maxLength ++
        (if paginateTruncated content maxLength then
          truncationNotice (nextStartIndex startIndex maxLength) else []) := by
  unfold paginate paginateSlice paginateTruncated nextStartIndex
  by_cases h : maxLength < content.length <;> simp [h]

theorem truncationNotice_length_pos (n : Nat) : 0 < (truncationNotice n).length := by
  unfold truncationNotice
  simp [List.length_append]

/-! ## HTML extraction (`extractContentFromHtml`, lines 53-84)

jsdom, `Readability` and `TurndownService` are external libraries; their
combined outcome on `(html, url)` is an input of the model.  `Readability`
either fails (`!article || !article.content`) or yields the article
subtree; from that subtree the repository's own code reads the `<img>`
elements in document order — the DOM property `img.src` is the source URI
already resolved against the document URL, and `img.alt` reflects the
`alt` attribute, the empty string when the attribute is absent — and the
turndown markdown of the subtree. -/

/-- An `<img>` element of the article subtree as the DOM exposes it:
`src` is the resolved source URI, `alt` the attribute when present. -/
structure DomImage where
  src : String
  alt : Option String
deriving DecidableEq

/-- The DOM property `img.alt`: the attribute value, or `""` when the
attribute is absent. -/
def domAlt (img : DomImage) : String :=
  img.alt.getD ""

/-- The outcome of `new JSDOM(html, url)` + `new Readability(...).parse()`
+ turndown on `article.content`, modelled as an input: `failed` when
`!article || !article.content`, otherwise the article's `<img>` elements
in document order together with the turndown markdown of the content. -/
inductive ArticleParse where
  | failed
  | parsed (images : List DomImage) (markdown : String)
deriving DecidableEq

/-- The `Image` interface of lines 21-24. -/
structure Image where
  src : String
  alt : String
deriving DecidableEq

/-- The `ExtractedContent` interface of lines 26-29. -/
structure ExtractedContent where
  markdown : String
  images : List Image
deriving DecidableEq

/-- Return type of `extractContentFromHtml`: `ExtractedContent | string`. -/
inductive ExtractOutcome where
  | ok (c : ExtractedContent)
  | failMsg (s : String)
deriving DecidableEq

/-- `extractContentFromHtml` (lines 53-84) given the external parse
outcome: on failure the literal error string of line 62; otherwise each
`<img>` is mapped to `\x7b src: img.src, alt: img.alt || "" \x7d`
(lines 71-75) alongside the turndown markdown. -/
def extractContentFromHtml (p : ArticleParse) : ExtractOutcome :=
  match p with
  | .failed => .failMsg "<e>Page failed to be simplified from HTML</e>"
  | .parsed imgs md =>
      .ok { markdown := md
            images := imgs.map (fun img =>
              { src := img.src
                alt := if domAlt img = "" then "" else domAlt img }) }

/-! ## Content-type classification and `fetchUrl` (lines 101-153) -/

/-- `needle` occurs as a contiguous substring of `hay` — JavaScript
`String.prototype.includes`. -/
def includesList (hay needle : List Char) : Bool :=
  match hay with
  | [] => needle.isEmpty
  | _ :: t => needle.isPrefixOf hay || includesList t needle

/-- Line 116-117: `text.toLowerCase().includes("<html") ||
contentType.includes("text/html")`. -/
def isHtmlContent (body contentType : String) : Bool :=
  includesList (body.data.map Char.toLower) "<html".data
    || includesList contentType.data "text/html".data

/-- Line 118: `contentType.includes("application/pdf")`. -/
def isPdfContent (contentType : String) : Bool :=
  includesList contentType.data "application/pdf".data

/-- The fields of the HTTP response that `fetchUrl` consults; the network
fetch itself is external.  `contentType` is
`response.headers.get("content-type") || ""` and `body` the response body
decoded as text. -/
structure Response where
  ok : Bool
  status : Nat
  contentType : String
  body : String
deriving DecidableEq

/-- The `FetchResult` interface of lines 95-99 (`imageUrls` is an
optional field). -/
structure FetchResult where
  content : String
  prefixNote : String
  imageUrls : Option (List String)
deriving DecidableEq

/-- Modelled from the spec: `pdf-parse` is an external dependency, not
code under `src/`; the spec states that an internal parse failure "yields
an empty text result rather than propagating a fatal error".  The outcome
of `await pdfparse(bytes)` is therefore modelled as
`Option (Option String)`: `none` when the parse fails to produce a
result, `some none` when the result object lacks a text field,
`some (some t)` when it carries the text `t`. -/
abbrev PdfOutcome : Type := Option (Option String)

/-- Line 141: `(await pdfparse(bytes))?.text || ""` — the optional chain
turns a missing result into `undefined` and `|| ""` turns any falsy text
(missing, or the empty string) into `""`. -/
def pdfExtractText (pdf : PdfOutcome) : String :=
  match pdf with
  | none => ""
  | some none => ""
  | some (some t) => if t = "" then "" else t

/-- `fetchUrl` (lines 101-153), with the external collaborators passed as
inputs: `resp` the network response, `article` the Readability/turndown
outcome on `(resp.body, url)`, `pdf` the pdf-parse outcome on the body
bytes.  A thrown `Error` is the `.error` branch. -/
def fetchUrl (url : String) (forceRaw : Bool) (resp : Response)
    (article : ArticleParse) (pdf : PdfOutcome) :
    Except String FetchResult :=
  if !resp.ok then
    .error ("Failed to fetch " ++ url ++ " - status code " ++ Nat.repr resp.status)
  else if isHtmlContent resp.body resp.contentType && !forceRaw then
    match extractContentFromHtml article with
    | .failMsg s => .ok { content := s, prefixNote := "", imageUrls := none }
    | .ok c =>
        .ok { content := c.markdown
              prefixNote := ""
              imageUrls := some ((c.images.map (fun img => img.src)).take 10) }
  else if isPdfContent resp.contentType && !forceRaw then
    .ok { content := pdfExtractText pdf, prefixNote := "", imageUrls := some [] }
  else
    .ok { content := resp.body
          prefixNote := "Content type " ++ resp.contentType ++
            " cannot be simplified to markdown, but here is the raw content:\n"
          imageUrls := none }

/-! ## The `tools/call` handler (lines 187-252) -/

/-- The single text content item the handler returns; `isError` is set
only by the `catch` block of lines 240-250. -/
structure ToolResult where
  text : List Char
  isError : Bool
deriving DecidableEq

/-- Lines 225-230: the images section appended after the paginated
content, present only when `imageUrls` exists and is nonempty. -/
def imagesSection (imageUrls : Option (List String)) : List Char :=
  match imageUrls with
  | some urls =>
      if 0 < urls.length then
        ("\n\nImages found in page:\n" ++
          String.intercalate "\n" (urls.map (fun u => "- " ++ u))).data
      else []
  | none => []

/-- The `CallToolSchema` handler body for the `fetch` tool (lines
196-250) after argument validation: any error thrown by `fetchUrl` is
caught and rendered as an error result; otherwise the content is
paginated and wrapped as on line 236. -/
def handleFetch (url : String) (startIndex maxLength : Nat) (raw : Bool)
    (resp : Response) (article : ArticleParse) (pdf : PdfOutcome) : ToolResult :=
  match fetchUrl url raw resp article pdf with
  | .error e => { text := ("Error: " ++ e).data, isError := true }
  | .ok fr =>
      { text := fr.prefixNote.data ++ ("Contents of " ++ url ++ ":\n").data
          ++ paginate fr.content.data startIndex maxLength
          ++ imagesSection fr.imageUrls
        isError := false }

/-! ## Concrete fixtures used by witnesses and counterexamples -/

/-- A successful HTML response. -/
def htmlResp : Response :=
  { ok := true, status := 200, contentType := "text/html"
    body := "<html><body>x</body></html>" }

/-- A successful PDF response. -/
def pdfResp : Response :=
  { ok := true, status := 200, contentType := "application/pdf"
    body := "%PDF-1.4" }

/-- A failed response (HTTP 404). -/
def errResp : Response :=
  { ok := false, status := 404, contentType := "", body := "" }

/-! ## Shared helper lemmas -/

theorem take_chunk (l : List Char) (a b : Nat) (h : a ≤ b) :
    l.take a ++ (l.take b).drop a = l.take b := by
  have h1 : (l.take b).take a = l.take a := by
    rw [List.take_take, Nat.min_eq_left h]
  conv_lhs => rw [← h1]
  exact List.take_append_drop a (l.take b)

theorem flatten_chunks (l : List Char) (M n : Nat) :
    ((List.range n).map (fun k => (l.take (k * M + M)).drop (k * M))).flatten
      = l.take (n * M) := by
  induction n with
  | zero => simp
  | succ n ih =>
      rw [List.range_succ, List.map_append, List.flatten_append, ih]
      simp only [List.map_cons, List.map_nil, List.flatten_cons, List.flatten_nil,
        List.append_nil]
      rw [take_chunk l (n * M) (n * M + M) (Nat.le_add_right _ _)]
      ring_nf

/-- Number of pagination windows starting at `0, M, 2M, ...` that meet a
text of length `L`: the ceiling of `L / M`. -/
def numWindows (L M : Nat) : Nat := (L + M - 1) / M

theorem le_numWindows_mul (L M : Nat) (hM : 0 < M) : L ≤ numWindows L M * M := by
  unfold numWindows
  rcases Nat.eq_zero_or_pos L with hL | hL
  · simp [hL]
  by_contra hc
  push_neg at hc
  have h2 : ((L + M - 1) / M + 1) * M ≤ L + M - 1 := by
    have e : ((L + M - 1) / M + 1) * M = (L + M - 1) / M * M + M := Nat.succ_mul _ _
    omega
  have h3 : (L + M - 1) / M + 1 ≤ (L + M - 1) / M :=
    (Nat.le_div_iff_mul_le hM).mpr h2
  omega

theorem paginateSlice_zero_length (text : List Char) (M : Nat) (h : M < text.length) :
    (paginateSlice text 0 M).length = M := by
  unfold paginateSlice jsSlice
  rw [if_pos h]
  simp [List.length_take]
  omega

theorem paginate_truncation_branch (text : List Char) (s M : Nat) (h : M < text.length) :
    paginate text s M = paginateSlice text s M ++ truncationNotice (nextStartIndex s M) := by
  unfold paginate paginateSlice nextStartIndex
  rw [if_pos h, if_pos h]

theorem fetchUrl_html_parsed (url : String) (resp : Response) (imgs : List DomImage)
    (md : String) (pdf : PdfOutcome)
    (hok : resp.ok = true) (hhtml : isHtmlContent resp.body resp.contentType = true) :
    fetchUrl url false resp (.parsed imgs md) pdf =
      .ok { content := md, prefixNote := ""
            imageUrls := some ((imgs.map (fun img => img.src)).take 10) } := by
  unfold fetchUrl
  rw [hok, hhtml]
  simp [extractContentFromHtml, List.map_map, Function.comp_def]

/-! ## Claims -/

/-- Claim C1, counterexample.  The claim asserts: whenever
`text.length - s ≤ M`, the pagination step returns the full remaining
text from position `s` onward with no continuation notice.  Both parts
fail on the code, whose branch condition `content.length > maxLength`
ignores `startIndex`: for `"abc"`, `s = 2`, `M = 5` the remaining length
is `1 ≤ 5`, yet the step returns the whole text `"abc"`, not the
remaining `"c"`; and for `"abc"`, `s = 2`, `M = 2` the remaining length
is `1 ≤ 2`, yet the truncation branch is taken, appending the notice. -/
theorem c1_counterexample :
    ("abc".data.length - 2 ≤ 5 ∧ paginate "abc".data 2 5 ≠ "abc".data.drop 2) ∧
    ("abc".data.length - 2 ≤ 2 ∧ paginateTruncated "abc".data 2 = true) := by
  decide

/-- Claim C1, amended: the code compares the WHOLE text length with
`maxLength`; whenever `text.length ≤ M` the pagination step returns the
entire text unchanged (which is the full remaining text only for
`startIndex = 0`) with no continuation notice. -/
theorem c1_amended_within_length (text : List Char) (s M : Nat) (h : text.length ≤ M) :
    paginate text s M = text ∧ paginateTruncated text M = false := by
  constructor
  · unfold paginate
    rw [if_neg (Nat.not_lt.mpr h)]
  · simp [paginateTruncated, Nat.not_lt.mpr h]

/-- Witness for `c1_amended_within_length` at `text = "ab"`, `s = 1`,
`M = 5`. -/
theorem c1_amended_within_length_witness :
    "ab".data.length ≤ 5 ∧
    (paginate "ab".data 1 5 = "ab".data ∧ paginateTruncated "ab".data 5 = false) :=
  ⟨by decide, c1_amended_within_length "ab".data 1 5 (by decide)⟩

/-- Claim C3, counterexample.  The claim asserts: `startIndex ≥ L` yields
an empty slice with `truncated = false`.  On the code: for `"abc"`,
`s = 5`, `M = 2` the truncation branch IS taken (`3 > 2`), so the notice
is appended (`truncated = true`); and for `"abc"`, `s = 5`, `M = 10` the
step returns the whole text `"abc"`, not an empty slice. -/
theorem c3_counterexample :
    ("abc".data.length ≤ 5 ∧ paginateTruncated "abc".data 2 = true) ∧
    ("abc".data.length ≤ 5 ∧ paginateSlice "abc".data 5 10 = "abc".data ∧
      "abc".data ≠ []) := by
  decide

/-- Claim C3, amended: an out-of-range start (`s ≥ L`) never produces an
error — the step is a total function — but the rest depends on the
whole-text comparison of line 215: when `L ≤ M` the step returns the full
text with no notice (not an empty slice), and when `M < L` the bare slice
is empty yet the continuation notice is still appended
(`truncated = true`), so the output is exactly the notice. -/
theorem c3_amended_out_of_range_start (text : List Char) (s M : Nat)
    (hs : text.length ≤ s) :
    (text.length ≤ M →
      paginate text s M = text ∧ paginateTruncated text M = false) ∧
    (M < text.length →
      paginateSlice text s M = [] ∧ paginateTruncated text M = true ∧
      paginate text s M = truncationNotice (nextStartIndex s M)) := by
  constructor
  · intro h
    constructor
    · unfold paginate
      rw [if_neg (Nat.not_lt.mpr h)]
    · simp [paginateTruncated, Nat.not_lt.mpr h]
  · intro h
    have hsl : jsSlice text s (s + M) = [] := by
      unfold jsSlice
      apply List.drop_eq_nil_of_le
      calc (text.take (s + M)).length ≤ text.length := by
            simp [List.length_take]
        _ ≤ s := hs
    refine ⟨?_, by simp [paginateTruncated, h], ?_⟩
    · unfold paginateSlice
      rw [if_pos h]
      exact hsl
    · unfold paginate nextStartIndex
      rw [if_pos h, hsl]
      simp

/-- Witness for `c3_amended_out_of_range_start` at `text = "abc"`,
`s = 5`, `M = 2`. -/
theorem c3_amended_out_of_range_start_witness :
    "abc".data.length ≤ 5 ∧
    (("abc".data.length ≤ 2 →
      paginate "abc".data 5 2 = "abc".data ∧ paginateTruncated "abc".data 2 = false) ∧
    (2 < "abc".data.length →
      paginateSlice "abc".data 5 2 = [] ∧ paginateTruncated "abc".data 2 = true ∧
      paginate "abc".data 5 2 = truncationNotice (nextStartIndex 5 2))) :=
  ⟨by decide, c3_amended_out_of_range_start "abc".data 5 2 (by decide)⟩

/-- Claim C4, confirmed: for every text of length `L` and every
`M < L`, the window `(startIndex = 0, maxLength = M)` takes the
truncation branch, its bare slice has exactly `M` characters, the
computed next start index is `0 + M = M`, and the output is the slice
with the continuation notice for `M` appended. -/
theorem c4_first_window_truncation (text : List Char) (M : Nat) (h : M < text.length) :
    paginateTruncated text M = true ∧
    (paginateSlice text 0 M).length = M ∧
    nextStartIndex 0 M = M ∧
    paginate text 0 M = paginateSlice text 0 M ++ truncationNotice (nextStartIndex 0 M) := by
  exact ⟨by simp [paginateTruncated, h], paginateSlice_zero_length text M h,
    Nat.zero_add M, paginate_truncation_branch text 0 M h⟩

/-- Witness for `c4_first_window_truncation` at `text = "abc"`, `M = 2`. -/
theorem c4_first_window_truncation_witness :
    2 < "abc".data.length ∧
    (paginateTruncated "abc".data 2 = true ∧
    (paginateSlice "abc".data 0 2).length = 2 ∧
    nextStartIndex 0 2 = 2 ∧
    paginate "abc".data 0 2 =
      paginateSlice "abc".data 0 2 ++ truncationNotice (nextStartIndex 0 2)) :=
  ⟨by decide, c4_first_window_truncation "abc".data 2 (by decide)⟩

/-- Claim C5, confirmed: for every text of length `L` and every positive
`M`, concatenating the bare pagination slices for the windows
`startIndex = 0, M, 2M, ...` (those with `k·M < L`, i.e. `k` below the
ceiling of `L / M`) reconstructs the text exactly. -/
theorem c5_slices_reconstruct (text : List Char) (M : Nat) (hM : 0 < M) :
    ((List.range (numWindows text.length M)).map
        (fun k => paginateSlice text (k * M) M)).flatten = text := by
  by_cases h : M < text.length
  · have hmap : (fun k => paginateSlice text (k * M) M)
        = fun k => (text.take (k * M + M)).drop (k * M) := by
      funext k
      unfold paginateSlice jsSlice
      rw [if_pos h]
    rw [hmap, flatten_chunks]
    exact List.take_of_length_le (le_numWindows_mul _ _ hM)
  · push_neg at h
    rcases Nat.eq_zero_or_pos text.length with hL | hL
    · have h0 : numWindows text.length M = 0 := by
        unfold numWindows
        rw [hL]
        exact Nat.div_eq_of_lt (by omega)
      rw [h0]
      simp [List.length_eq_zero.mp hL]
    · have h1 : numWindows text.length M = 1 := by
        unfold numWindows
        have := Nat.div_eq_of_lt_le
          (by omega : 1 * M ≤ text.length + M - 1)
          (by omega : text.length + M - 1 < (1 + 1) * M)
        omega
      rw [h1]
      simp [paginateSlice, Nat.not_lt.mpr h]

/-- Witness for `c5_slices_reconstruct` at `text = "abcde"`, `M = 2`
(three windows: `"ab"`, `"cd"`, `"e"`). -/
theorem c5_slices_reconstruct_witness :
    0 < 2 ∧
    ((List.range (numWindows "abcde".data.length 2)).map
        (fun k => paginateSlice "abcde".data (k * 2) 2)).flatten = "abcde".data :=
  ⟨by decide, c5_slices_reconstruct "abcde".data 2 (by decide)⟩

/-- Claim C2, confirmed: for every response classified as PDF (declared
content type contains `application/pdf`, not classified HTML, no raw
override, successful status), when the binary parse fails internally
(outcome `none`, per the spec-modelled `PdfOutcome`), `fetchUrl` does not
propagate an error: it succeeds with content equal to the empty string
(and an empty image list), and the `tools/call` handler consequently
returns a non-error result. -/
theorem c2_pdf_failure_degrades (url : String) (s M : Nat) (resp : Response)
    (article : ArticleParse)
    (hok : resp.ok = true)
    (hhtml : isHtmlContent resp.body resp.contentType = false)
    (hpdf : isPdfContent resp.contentType = true) :
    fetchUrl url false resp article none =
      .ok { content := "", prefixNote := "", imageUrls := some [] } ∧
    (handleFetch url s M false resp article none).isError = false := by
  have hf : fetchUrl url false resp article none =
      .ok { content := "", prefixNote := "", imageUrls := some [] } := by
    unfold fetchUrl
    rw [hok, hhtml, hpdf]
    simp [pdfExtractText]
  refine ⟨hf, ?_⟩
  unfold handleFetch
  rw [hf]

/-- Witness for `c2_pdf_failure_degrades` at the PDF fixture response
with a failing parse and the default window `(0, 20000)`. -/
theorem c2_pdf_failure_degrades_witness :
    (pdfResp.ok = true ∧
      isHtmlContent pdfResp.body pdfResp.contentType = false ∧
      isPdfContent pdfResp.contentType = true) ∧
    (fetchUrl "u" false pdfResp .failed none =
      .ok { content := "", prefixNote := "", imageUrls := some [] } ∧
    (handleFetch "u" 0 20000 false pdfResp .failed none).isError = false) :=
  ⟨⟨rfl, by decide, by decide⟩,
    c2_pdf_failure_degrades "u" 0 20000 pdfResp .failed rfl (by decide) (by decide)⟩

/-- Claim C6, counterexample.  The claim asserts the harvested media
reference sequence is deduplicated.  The code (lines 71-75 and 130) never
deduplicates: an article whose content holds two `<img>` elements with
the same source `"a.png"` yields the list `["a.png", "a.png"]`, in which
that source URI appears twice. -/
theorem c6_counterexample :
    fetchUrl "u" false htmlResp
        (.parsed [⟨"a.png", some "A"⟩, ⟨"a.png", some "B"⟩] "md") none =
      .ok { content := "md", prefixNote := ""
            imageUrls := some ["a.png", "a.png"] } ∧
    ¬ (["a.png", "a.png"] : List String).Nodup :=
  ⟨rfl, by decide⟩

/-- Claim C6, amended: the harvested sequence is the source URIs of the
article's image elements in document order, capped at the first 10 — it
preserves document order but is NOT deduplicated; a source URI that
occurs in several image elements occurs just as often in the harvest. -/
theorem c6_amended_harvest_in_order_capped (url : String) (resp : Response)
    (imgs : List DomImage) (md : String)
    (hok : resp.ok = true) (hhtml : isHtmlContent resp.body resp.contentType = true) :
    fetchUrl url false resp (.parsed imgs md) none =
      .ok { content := md, prefixNote := ""
            imageUrls := some ((imgs.map (fun img => img.src)).take 10) } :=
  fetchUrl_html_parsed url resp imgs md none hok hhtml

/-- Witness for `c6_amended_harvest_in_order_capped` at the HTML fixture
with the duplicated image. -/
theorem c6_amended_harvest_in_order_capped_witness :
    (htmlResp.ok = true ∧ isHtmlContent htmlResp.body htmlResp.contentType = true) ∧
    fetchUrl "u" false htmlResp
        (.parsed [⟨"a.png", some "A"⟩, ⟨"a.png", some "B"⟩] "md") none =
      .ok { content := "md", prefixNote := ""
            imageUrls := some ((([⟨"a.png", some "A"⟩, ⟨"a.png", some "B"⟩] :
              List DomImage).map (fun img => img.src)).take 10) } :=
  ⟨⟨rfl, by decide⟩,
    c6_amended_harvest_in_order_capped "u" htmlResp
      [⟨"a.png", some "A"⟩, ⟨"a.png", some "B"⟩] "md" rfl (by decide)⟩

/-- Claim C7, counterexample.  The claim asserts every media reference in
the operation's FINAL result carries both the source URI and the alt
text.  For the scenario article containing `<img src="a.png" alt="A">`
the final result carries only the bare URI list `["a.png"]`: the
extractor's intermediate `Image` does pair the URI with alt `"A"`, but
line 130 maps images to `img.src` alone, and indeed an article differing
only in its alt text (`"B"`) produces the identical final result, so the
final result cannot carry alt text. -/
theorem c7_counterexample :
    fetchUrl "u" false htmlResp (.parsed [⟨"a.png", some "A"⟩] "md") none =
      .ok { content := "md", prefixNote := "", imageUrls := some ["a.png"] } ∧
    extractContentFromHtml (.parsed [⟨"a.png", some "A"⟩] "md") =
      .ok { markdown := "md", images := [⟨"a.png", "A"⟩] } ∧
    fetchUrl "u" false htmlResp (.parsed [⟨"a.png", some "A"⟩] "md") none =
      fetchUrl "u" false htmlResp (.parsed [⟨"a.png", some "B"⟩] "md") none :=
  ⟨rfl, rfl, rfl⟩

/-- Claim C7, amended: the EXTRACTOR's media references each carry the
resolved source URI and the alt text (the empty string when the `alt`
attribute is absent) — for the scenario article with
`<img src="a.png" alt="A">` they equal `[⟨"a.png", "A"⟩]` — but the
operation's final result retains only the source URIs (capped at 10);
the alt text is dropped at line 130. -/
theorem c7_amended_alt_kept_by_extractor_dropped_in_result (url : String)
    (resp : Response) (imgs : List DomImage) (md : String)
    (hok : resp.ok = true) (hhtml : isHtmlContent resp.body resp.contentType = true) :
    extractContentFromHtml (.parsed imgs md) =
      .ok { markdown := md
            images := imgs.map (fun img => ⟨img.src, img.alt.getD ""⟩) } ∧
    fetchUrl url false resp (.parsed imgs md) none =
      .ok { content := md, prefixNote := ""
            imageUrls := some ((imgs.map (fun img => img.src)).take 10) } := by
  constructor
  · have hmap : imgs.map (fun img =>
        ({ src := img.src
           alt := if domAlt img = "" then "" else domAlt img } : Image))
        = imgs.map (fun img => ⟨img.src, img.alt.getD ""⟩) := by
      apply List.map_congr_left
      intro img _
      unfold domAlt
      by_cases hc : img.alt.getD "" = "" <;> simp [hc]
    have hred : extractContentFromHtml (.parsed imgs md) =
        .ok { markdown := md
              images := imgs.map (fun img =>
                { src := img.src
                  alt := if domAlt img = "" then "" else domAlt img }) } := rfl
    rw [hred, hmap]
  · exact fetchUrl_html_parsed url resp imgs md none hok hhtml

/-- Witness for `c7_amended_alt_kept_by_extractor_dropped_in_result` at
the scenario article `<img src="a.png" alt="A">`. -/
theorem c7_amended_alt_kept_witness :
    (htmlResp.ok = true ∧ isHtmlContent htmlResp.body htmlResp.contentType = true) ∧
    (extractContentFromHtml (.parsed [⟨"a.png", some "A"⟩] "Hello") =
      .ok { markdown := "Hello"
            images := ([⟨"a.png", some "A"⟩] : List DomImage).map
              (fun img => ⟨img.src, img.alt.getD ""⟩) } ∧
    fetchUrl "u" false htmlResp (.parsed [⟨"a.png", some "A"⟩] "Hello") none =
      .ok { content := "Hello", prefixNote := ""
            imageUrls := some ((([⟨"a.png", some "A"⟩] : List DomImage).map
              (fun img => img.src)).take 10) }) :=
  ⟨⟨rfl, by decide⟩,
    c7_amended_alt_kept_by_extractor_dropped_in_result "u" htmlResp
      [⟨"a.png", some "A"⟩] "Hello" rfl (by decide)⟩

/-- Claim C8, confirmed: whatever the input document, whenever `fetchUrl`
succeeds and its result carries an image URL list, that list has at most
10 entries — the HTML branch keeps only the first 10 in document order
(line 130, `slice(0, 10)`, silently dropping the rest) and the PDF branch
returns the empty list. -/
theorem c8_media_refs_capped (url : String) (fr : Bool) (resp : Response)
    (article : ArticleParse) (pdf : PdfOutcome) (r : FetchResult) (l : List String)
    (hr : fetchUrl url fr resp article pdf = .ok r)
    (hl : r.imageUrls = some l) :
    l.length ≤ 10 := by
  unfold fetchUrl at hr
  by_cases h1 : resp.ok = true
  · by_cases h2 : (isHtmlContent resp.body resp.contentType && !fr) = true
    · cases article with
      | failed =>
          simp [h1, h2, extractContentFromHtml] at hr
          rw [← hr] at hl
          cases hl
      | parsed imgs md =>
          simp [h1, h2, extractContentFromHtml] at hr
          rw [← hr] at hl
          simp only [Option.some.injEq] at hl
          rw [← hl]
          simp
    · by_cases h3 : (isPdfContent resp.contentType && !fr) = true
      · simp [h1, h2, h3] at hr
        rw [← hr] at hl
        simp only [Option.some.injEq] at hl
        simp [← hl]
      · simp [h1, h2, h3] at hr
        rw [← hr] at hl
        cases hl
  · simp [h1] at hr

/-- Witness for `c8_media_refs_capped` at the PDF fixture (empty image
list). -/
theorem c8_media_refs_capped_witness : ([] : List String).length ≤ 10 :=
  c8_media_refs_capped "u" false pdfResp .failed none
    { content := "", prefixNote := "", imageUrls := some [] } [] rfl rfl

/-- Claim C9, confirmed: whenever the response status is not successful,
`fetchUrl` throws (models as `.error`) instead of returning content, and
the thrown message — `Failed to fetch {url} - status code {status}` —
contains both the requested URL and the decimal status code as
substrings. -/
theorem c9_status_error_message (url : String) (fr : Bool) (resp : Response)
    (article : ArticleParse) (pdf : PdfOutcome) (h : resp.ok = false) :
    fetchUrl url fr resp article pdf =
      .error ("Failed to fetch " ++ url ++ " - status code " ++ Nat.repr resp.status) ∧
    (∃ a b : List Char,
      ("Failed to fetch " ++ url ++ " - status code " ++ Nat.repr resp.status).data
        = a ++ url.data ++ b) ∧
    (∃ c d : List Char,
      ("Failed to fetch " ++ url ++ " - status code " ++ Nat.repr resp.status).data
        = c ++ (Nat.repr resp.status).data ++ d) := by
  refine ⟨?_,
    ⟨"Failed to fetch ".data, (" - status code " ++ Nat.repr resp.status).data, ?_⟩,
    ⟨("Failed to fetch " ++ url ++ " - status code ").data, [], ?_⟩⟩
  · unfold fetchUrl
    rw [h]
    rfl
  · show ("Failed to fetch ".data ++ url.data ++ " - status code ".data
      ++ (Nat.repr resp.status).data) = _
    simp [List.append_assoc]
  · show ("Failed to fetch ".data ++ url.data ++ " - status code ".data
      ++ (Nat.repr resp.status).data) = _
    simp [List.append_assoc]

/-- Witness for `c9_status_error_message` at the 404 fixture. -/
theorem c9_status_error_message_witness :
    errResp.ok = false ∧
    (fetchUrl "http://x" false errResp .failed none =
      .error ("Failed to fetch " ++ "http://x" ++ " - status code "
        ++ Nat.repr errResp.status) ∧
    (∃ a b : List Char,
      ("Failed to fetch " ++ "http://x" ++ " - status code "
        ++ Nat.repr errResp.status).data = a ++ "http://x".data ++ b) ∧
    (∃ c d : List Char,
      ("Failed to fetch " ++ "http://x" ++ " - status code "
        ++ Nat.repr errResp.status).data
        = c ++ (Nat.repr errResp.status).data ++ d)) :=
  ⟨rfl, c9_status_error_message "http://x" false errResp .failed none rfl⟩

set_option maxRecDepth 4000 in
/-- Claim C10, counterexample.  The claim asserts the truncated text is
always strictly longer than `maxLength` characters.  That holds only for
`startIndex = 0`: with text of 300 characters, `maxLength = 200` and
`startIndex = 299`, the truncation branch is taken (`300 > 200`) but the
bare slice has a single character, and slice plus notice total 95
characters — not more than 200. -/
theorem c10_counterexample :
    200 < (List.replicate 300 'a').length ∧
    (paginate (List.replicate 300 'a') 299 200).length ≤ 200 := by
  decide

/-- Claim C10, amended: whenever truncation occurs (`text.length > M`)
the returned text is not the bare slice — the continuation notice naming
`startIndex + maxLength` is appended, so the output is strictly longer
than the bare slice; it exceeds `maxLength` characters when
`startIndex = 0` (the slice alone then has exactly `maxLength`
characters), though not necessarily for positive start indices near the
end of the text. -/
theorem c10_amended_notice_appended (text : List Char) (s M : Nat)
    (h : M < text.length) :
    paginate text s M = paginateSlice text s M ++ truncationNotice (nextStartIndex s M) ∧
    (paginateSlice text s M).length < (paginate text s M).length ∧
    (s = 0 → M < (paginate text 0 M).length) := by
  have heq := paginate_truncation_branch text s M h
  refine ⟨heq, ?_, ?_⟩
  · rw [heq, List.length_append]
    have := truncationNotice_length_pos (nextStartIndex s M)
    omega
  · intro hs
    subst hs
    rw [heq, List.length_append, paginateSlice_zero_length text M h]
    have := truncationNotice_length_pos (nextStartIndex 0 M)
    omega

/-- Witness for `c10_amended_notice_appended` at `text = "abc"`, `s = 1`,
`M = 2`. -/
theorem c10_amended_notice_appended_witness :
    2 < "abc".data.length ∧
    (paginate "abc".data 1 2 =
      paginateSlice "abc".data 1 2 ++ truncationNotice (nextStartIndex 1 2) ∧
    (paginateSlice "abc".data 1 2).length < (paginate "abc".data 1 2).length ∧
    (1 = 0 → 2 < (paginate "abc".data 0 2).length)) :=
  ⟨by decide, c10_amended_notice_appended "abc".data 1 2 (by decide)⟩

end McpFetch
